import Mathlib

set_option maxRecDepth 16384

/-!
Shallow embedding of the log-parsing / message-aggregation core of the
mailcow delivery-report script (the archive variant with both absolute
date+time filtering and numeric lookback filtering).

Lines are modelled as `List Char`.  The log text is ASCII, so the ASCII
fragments of the regex character classes (`\s`, `\w`, `\d`, `[A-Z]`,
`[a-z]`, `[A-F0-9]`) are modelled.  Python exceptions that escape the
functions (the uncaught `ValueError`s of `strptime` and `int`) are
modelled with `Except Unit`; a caught exception is modelled by the
`Option`/default value the handler produces.
-/

deriving instance DecidableEq for Except

namespace MailcowDR

/-- ASCII whitespace, as matched by the regex class and by `str.split()`. -/
def isWs (c : Char) : Bool :=
  c == ' ' || c == '\t' || c == '\n' || c == '\r' || c == '\x0b' || c == '\x0c'

/-- ASCII word characters, the `\w` class used by the `\b` boundaries. -/
def isWordChar (c : Char) : Bool :=
  ('a' ≤ c && c ≤ 'z') || ('A' ≤ c && c ≤ 'Z') || ('0' ≤ c && c ≤ '9') || c == '_'

/-- The character class `[A-F0-9]` of the queue-id pattern. -/
def isHexUp (c : Char) : Bool :=
  ('A' ≤ c && c ≤ 'F') || ('0' ≤ c && c ≤ '9')

/-- Convert a string literal to the `List Char` representation of lines. -/
def s2l (s : String) : List Char := s.toList

/-- Boolean prefix test on character lists. -/
def isPrefixL : List Char → List Char → Bool
  | [], _ => true
  | _ :: _, [] => false
  | a :: as, b :: bs => a == b && isPrefixL as bs

/-- Python's substring test `needle in haystack`. -/
def substr (needle : List Char) : List Char → Bool
  | [] => isPrefixL needle []
  | c :: cs => isPrefixL needle (c :: cs) || substr needle cs

/-- Helper splitting a line into its maximal runs of word characters. -/
def wordRunsAux : List Char → List Char → List (List Char)
  | [], acc => if acc.isEmpty then [] else [acc.reverse]
  | c :: cs, acc =>
    if isWordChar c then wordRunsAux cs (c :: acc)
    else if acc.isEmpty then wordRunsAux cs []
    else acc.reverse :: wordRunsAux cs []

/-- Maximal runs of word characters of a line, left to right. -/
def wordRuns (l : List Char) : List (List Char) := wordRunsAux l []

/-- `extract_queue_id`: the leftmost match of the pattern
`\b([A-F0-9]{10,12})\b`, which is exactly the first maximal word-character
run that consists of the class `[A-F0-9]` and is 10 to 12 characters long. -/
def extract_queue_id (line : List Char) : Option (List Char) :=
  (wordRuns line).find? (fun r =>
    r.all isHexUp && decide (10 ≤ r.length) && decide (r.length ≤ 12))

/-- Capture of `[^>]*>`: the characters before the next `>`, failing when
no `>` follows. -/
def takeToGt : List Char → Option (List Char)
  | [] => none
  | c :: cs => if c == '>' then some [] else (takeToGt cs).map (c :: ·)

/-- `extract_field` for the address patterns `from=<([^>]*)>` and
`to=<([^>]*)>`: leftmost occurrence of the key with a closing `>` after it. -/
def extract_field (key : List Char) : List Char → Option (List Char)
  | [] => none
  | c :: cs =>
    if isPrefixL key (c :: cs) then
      match takeToGt ((c :: cs).drop key.length) with
      | some v => some v
      | none => extract_field key cs
    else extract_field key cs

/-- `extract_field` for the pattern `size=(\d+)`: leftmost occurrence of
`size=` followed by at least one digit, capturing the maximal digit run. -/
def extract_size : List Char → Option (List Char)
  | [] => none
  | c :: cs =>
    if isPrefixL (s2l "size=") (c :: cs) then
      let ds := ((c :: cs).drop 5).takeWhile Char.isDigit
      if ds.isEmpty then extract_size cs else some ds
    else extract_size cs

/-- Decimal value of a digit run, as Python `int` computes it. -/
def digitsVal (l : List Char) : Nat := l.foldl (fun a c => a * 10 + (c.toNat - 48)) 0

/-- Result of the timestamp regex
`([A-Z][a-z]{2})\s+(\d+)\s+(\d{2}:\d{2}:\d{2})`. -/
structure TsMatch where
  mon : List Char
  day : List Char
  hh : List Char
  mm : List Char
  ss : List Char
deriving DecidableEq

/-- Match `\d{2}:\d{2}:\d{2}` at the head of the list. -/
def matchTimeHMS (l : List Char) : Option (List Char × List Char × List Char) :=
  match l with
  | d1 :: d2 :: c1 :: d3 :: d4 :: c2 :: d5 :: d6 :: _ =>
    if d1.isDigit && d2.isDigit && c1 == ':' && d3.isDigit && d4.isDigit
        && c2 == ':' && d5.isDigit && d6.isDigit
    then some ([d1, d2], [d3, d4], [d5, d6]) else none
  | _ => none

/-- Match the timestamp pattern anchored at the head of the list. -/
def matchTsAt (l : List Char) : Option TsMatch :=
  match l with
  | m1 :: m2 :: m3 :: rest =>
    if m1.isUpper && m2.isLower && m3.isLower then
      if (rest.takeWhile isWs).isEmpty then none else
      let r1 := rest.dropWhile isWs
      let day := r1.takeWhile Char.isDigit
      if day.isEmpty then none else
      let r2 := r1.dropWhile Char.isDigit
      if (r2.takeWhile isWs).isEmpty then none else
      let r3 := r2.dropWhile isWs
      match matchTimeHMS r3 with
      | some (h, mi, s) => some ⟨[m1, m2, m3], day, h, mi, s⟩
      | none => none
    else none
  | _ => none

/-- Leftmost match of the timestamp pattern in the line. -/
def searchTs : List Char → Option TsMatch
  | [] => none
  | c :: cs =>
    match matchTsAt (c :: cs) with
    | some r => some r
    | none => searchTs cs

/-- `extract_timestamp`: the syslog timestamp of the line reformatted to
Australian style, `f"{day} {month} {time}"` with the day as an `int`. -/
def extract_timestamp (line : List Char) : Option (List Char) :=
  match searchTs line with
  | some t =>
    some (Nat.toDigits 10 (digitsVal t.day) ++ [' '] ++ t.mon ++ [' ']
      ++ t.hh ++ [':'] ++ t.mm ++ [':'] ++ t.ss)
  | none => none

/-- `is_blocked`: the five rejection markers. -/
def is_blocked (line : List Char) : Bool :=
  substr (s2l "NOQUEUE: reject") line ||
  substr (s2l "NOQUEUE: filter") line ||
  substr (s2l "milter-reject") line ||
  substr (s2l "status=bounced") line ||
  substr (s2l "status=deferred") line

/-- `is_sendgrid`: the relay-transport marker. -/
def is_sendgrid (line : List Char) : Bool :=
  substr (s2l "smtp_via_transport_maps:smtp.sendgrid.net") line

/-- One aggregated message record (the Python dict with keys
`from`, `to`, `size`, `status`, `sg`, `time`). -/
structure MsgInfo where
  from_ : List Char
  to_ : List Char
  size : List Char
  status : List Char
  sg : List Char
  time : List Char
deriving DecidableEq

/-- The unset sentinel `"-"`. -/
def dash : List Char := ['-']

/-- Fresh record created on first sighting of a queue id. -/
def initEntry : MsgInfo := ⟨dash, dash, dash, dash, s2l "No", dash⟩

/-- Python's `extract_field(...) or "-"`: `None` and the empty capture
both fall back to the sentinel. -/
def orDash : Option (List Char) → List Char
  | some s => if s.isEmpty then dash else s
  | none => dash

/-- Truthiness of an optional capture (`None` and `""` are falsy). -/
def truthyS : Option (List Char) → Bool
  | some s => !s.isEmpty
  | none => false

/-- The wholesale replacement record written for a blocked line. -/
def blockedEntry (line dateFilter : List Char) : MsgInfo :=
  { from_ := orDash (extract_field (s2l "from=<") line)
    to_ := orDash (extract_field (s2l "to=<") line)
    size := dash
    status := s2l "blocked"
    sg := if is_sendgrid line then s2l "Yes" else s2l "No"
    time := if dateFilter.isEmpty then dash else dateFilter }

/-- The per-field merge performed for a non-blocked line with a queue id. -/
def mergeEntry (old : MsgInfo) (line : List Char) : MsgInfo :=
  { from_ := match extract_field (s2l "from=<") line with
      | some s => if s.isEmpty then old.from_ else s
      | none => old.from_
    to_ := match extract_field (s2l "to=<") line with
      | some s => if s.isEmpty then old.to_ else s
      | none => old.to_
    size := match extract_size line with
      | some s => if s.isEmpty then old.size else s
      | none => old.size
    status := if substr (s2l "status=sent") line then s2l "sent" else old.status
    sg := if is_sendgrid line then s2l "Yes" else old.sg
    time := if old.time = dash then
        match extract_timestamp line with
        | some t => if t.isEmpty then old.time else t
        | none => old.time
      else old.time }

/-- The `messages` mapping, in insertion order. -/
abbrev Msgs := List (List Char × MsgInfo)

/-- Lookup of a queue id in the mapping. -/
def lookupQ (msgs : Msgs) (q : List Char) : Option MsgInfo :=
  match msgs.find? (fun p => p.1 == q) with
  | some p => some p.2
  | none => none

/-- In-place replacement of the record of a queue id. -/
def updateQ (msgs : Msgs) (q : List Char) (v : MsgInfo) : Msgs :=
  msgs.map (fun p => if p.1 == q then (p.1, v) else p)

/-- The aggregation performed for one line that passed the date gate:
queue-id extraction, lazy record creation, then either the blocked
wholesale overwrite or the per-field merge. -/
def aggStep (dateFilter : List Char) (msgs : Msgs) (line : List Char) : Msgs :=
  match extract_queue_id line with
  | none => msgs
  | some qid =>
    let msgs1 := if (lookupQ msgs qid).isSome then msgs else msgs ++ [(qid, initEntry)]
    if is_blocked line then updateQ msgs1 qid (blockedEntry line dateFilter)
    else
      match lookupQ msgs1 qid with
      | some old => updateQ msgs1 qid (mergeEntry old line)
      | none => msgs1

/-- The current calendar date, `datetime.now()` restricted to the fields
the script reads from it. -/
structure Today where
  year : Int
  month : Nat
  day : Nat
deriving DecidableEq

/-- Gregorian leap-year rule. -/
def isLeap (y : Int) : Bool := y % 4 == 0 && (y % 100 != 0 || y % 400 == 0)

/-- Number of days of a month (months numbered 1 to 12). -/
def daysInMonth (y : Int) (m : Nat) : Nat :=
  if m == 2 then (if isLeap y then 29 else 28)
  else if m == 4 || m == 6 || m == 9 || m == 11 then 30
  else 31

/-- The previous calendar day, one step of `timedelta(days=1)` subtraction. -/
def predDay (t : Today) : Today :=
  if 2 ≤ t.day then ⟨t.year, t.month, t.day - 1⟩
  else if 2 ≤ t.month then ⟨t.year, t.month - 1, daysInMonth t.year (t.month - 1)⟩
  else ⟨t.year - 1, 12, 31⟩

/-- `datetime.now() - timedelta(days=n)` at calendar-date granularity. -/
def minusDays (t : Today) : Nat → Today
  | 0 => t
  | n + 1 => predDay (minusDays t n)

/-- `strftime('%b')`, the English abbreviated month name. -/
def monthAbbrev : Nat → List Char
  | 1 => s2l "Jan"
  | 2 => s2l "Feb"
  | 3 => s2l "Mar"
  | 4 => s2l "Apr"
  | 5 => s2l "May"
  | 6 => s2l "Jun"
  | 7 => s2l "Jul"
  | 8 => s2l "Aug"
  | 9 => s2l "Sep"
  | 10 => s2l "Oct"
  | 11 => s2l "Nov"
  | 12 => s2l "Dec"
  | _ => []

/-- One syslog date pattern of the lookback filter: two separating spaces
for single-digit days, one for double-digit days. -/
def lookbackPat (t : Today) : List Char :=
  monthAbbrev t.month ++ (if t.day < 10 then [' ', ' '] else [' ']) ++ Nat.toDigits 10 t.day

/-- Strip leading and trailing whitespace, as `int()` does. -/
def stripWsL (l : List Char) : List Char :=
  ((l.dropWhile isWs).reverse.dropWhile isWs).reverse

/-- Digit-run check used by `pyInt?`. -/
def pyIntCore (l : List Char) : Option Int :=
  if !l.isEmpty && l.all Char.isDigit then some ((digitsVal l : Int)) else none

/-- Python `int(s)` on the sign-and-digits inputs the script can meet
(`None` models the raised `ValueError`; underscore separators and
non-ASCII digits are outside the log text and not modelled). -/
def pyInt? (l : List Char) : Option Int :=
  match stripWsL l with
  | '-' :: rest => (pyIntCore rest).map (fun v => -v)
  | '+' :: rest => pyIntCore rest
  | rest => pyIntCore rest

/-- `parse_date_filter`: for a numeric lookback input, the syslog date
substrings of today back through `days_back` days ago; `None` for empty
or non-numeric input. -/
def parse_date_filter (today : Today) (dateInput : List Char)
    (timeInput : Option (List Char)) : Option (List (List Char)) :=
  if dateInput.isEmpty then none
  else
    match pyInt? dateInput with
    | some n =>
      if n < 0 then some []
      else some ((List.range (n.toNat + 1)).map (fun i => lookbackPat (minusDays today i)))
    | none => none

/-- A naive `datetime` value as the script builds and compares them. -/
structure PyDateTime where
  year : Int
  month : Nat
  day : Nat
  hour : Nat
  minute : Nat
  second : Nat
deriving DecidableEq

/-- The `datetime(...)` constructor: `some` on valid field ranges, and
`none` for the `ValueError` the callers catch. -/
def mkDatetime? (y : Int) (mo : Nat) (d h mi s : Int) : Option PyDateTime :=
  if 1 ≤ y ∧ y ≤ 9999 ∧ 1 ≤ mo ∧ mo ≤ 12 ∧ 1 ≤ d ∧ d ≤ (daysInMonth y mo : Int)
      ∧ 0 ≤ h ∧ h ≤ 23 ∧ 0 ≤ mi ∧ mi ≤ 59 ∧ 0 ≤ s ∧ s ≤ 59
  then some ⟨y, mo, d.toNat, h.toNat, mi.toNat, s.toNat⟩ else none

/-- Chronological `≤` on naive datetimes. -/
def dtLe (a b : PyDateTime) : Bool :=
  if a.year ≠ b.year then decide (a.year < b.year)
  else if a.month ≠ b.month then decide (a.month < b.month)
  else if a.day ≠ b.day then decide (a.day < b.day)
  else if a.hour ≠ b.hour then decide (a.hour < b.hour)
  else if a.minute ≠ b.minute then decide (a.minute < b.minute)
  else decide (a.second ≤ b.second)

/-- `strptime(m, '%b').month` on a token of shape `[A-Z][a-z]{2}`:
`none` models the `ValueError` raised for a non-month token. -/
def monthNum? (m : List Char) : Option Nat :=
  if m = s2l "Jan" then some 1
  else if m = s2l "Feb" then some 2
  else if m = s2l "Mar" then some 3
  else if m = s2l "Apr" then some 4
  else if m = s2l "May" then some 5
  else if m = s2l "Jun" then some 6
  else if m = s2l "Jul" then some 7
  else if m = s2l "Aug" then some 8
  else if m = s2l "Sep" then some 9
  else if m = s2l "Oct" then some 10
  else if m = s2l "Nov" then some 11
  else if m = s2l "Dec" then some 12
  else none

/-- `parse_timestamp_from_line`: regex search, then `strptime` on the
month token (whose `ValueError` escapes, modelled by `.error`), then the
guarded `datetime` construction (whose `ValueError` is caught to `none`). -/
def parse_timestamp_from_line (today : Today) (line : List Char) :
    Except Unit (Option PyDateTime) :=
  match searchTs line with
  | none => .ok none
  | some t =>
    match monthNum? t.mon with
    | none => .error ()
    | some mo =>
      .ok (mkDatetime? today.year mo ((digitsVal t.day : Int)) ((digitsVal t.hh : Int))
        ((digitsVal t.mm : Int)) ((digitsVal t.ss : Int)))

/-- `should_include_log_line`: keep the line when no threshold is active,
otherwise keep it iff its parsed timestamp is at least the threshold;
an unparseable timestamp excludes the line (or propagates the error). -/
def should_include_log_line (today : Today) (line : List Char)
    (startDt : Option PyDateTime) : Except Unit Bool :=
  match startDt with
  | none => .ok true
  | some sd =>
    match parse_timestamp_from_line today line with
    | .error e => .error e
    | .ok none => .ok false
    | .ok (some ld) => .ok (dtLe sd ld)

/-- Helper of `splitWs`, accumulating the current token reversed. -/
def splitWsAux : List Char → List Char → List (List Char)
  | [], acc => if acc.isEmpty then [] else [acc.reverse]
  | c :: cs, acc =>
    if isWs c then
      if acc.isEmpty then splitWsAux cs [] else acc.reverse :: splitWsAux cs []
    else splitWsAux cs (c :: acc)

/-- Python `str.split()` with no argument: split on whitespace runs,
dropping empty tokens. -/
def splitWs (l : List Char) : List (List Char) := splitWsAux l []

/-- Helper of `splitColon`. -/
def splitColonAux : List Char → List Char → List (List Char)
  | [], acc => [acc.reverse]
  | c :: cs, acc => if c == ':' then acc.reverse :: splitColonAux cs [] else splitColonAux cs (c :: acc)

/-- Python `str.split(':')`, keeping empty tokens. -/
def splitColon (l : List Char) : List (List Char) := splitColonAux l []

/-- Python `part.isdigit()` (ASCII fragment). -/
def isdigitL (p : List Char) : Bool := !p.isEmpty && p.all Char.isDigit

/-- The token shape test `re.match(r'[A-Z][a-z]{2}', part)`: a prefix
match, so any token starting upper-lower-lower qualifies. -/
def monthLike (p : List Char) : Bool :=
  match p with
  | a :: b :: c :: _ => a.isUpper && b.isLower && c.isLower
  | _ => false

/-- One iteration of the token loop of `parse_date_time_for_comparison`:
a one-or-two-digit token becomes the day number, otherwise a month-like
token becomes the month token (each later hit overwriting the earlier). -/
def partStep (st : Option Nat × Option (List Char)) (p : List Char) :
    Option Nat × Option (List Char) :=
  if isdigitL p && decide (p.length ≤ 2) then (some (digitsVal p), st.2)
  else if monthLike p then (st.1, some p)
  else st

/-- The `hour/minute/second` extraction from `time_str.split(':')`; a
component that `int()` cannot parse raises, modelled by `.error`. -/
def parseTimeParts (ts : List Char) : Except Unit (Int × Int × Int) :=
  match splitColon ts with
  | [] => .ok (0, 0, 0)
  | [a] =>
    match pyInt? a with
    | some h => .ok (h, 0, 0)
    | none => .error ()
  | [a, b] =>
    match pyInt? a, pyInt? b with
    | some h, some mi => .ok (h, mi, 0)
    | _, _ => .error ()
  | a :: b :: c :: _ =>
    match pyInt? a, pyInt? b, pyInt? c with
    | some h, some mi, some s => .ok (h, mi, s)
    | _, _, _ => .error ()

/-- `parse_date_time_for_comparison`: scan the date tokens for a short
digit token and a month-like token; return `none` unless both are found
truthy; `strptime` on the month token may raise (`.error`), the time
components may raise, and the final `datetime` call is guarded. -/
def parse_date_time_for_comparison (today : Today) (dateStr : List Char)
    (timeStr : Option (List Char)) : Except Unit (Option PyDateTime) :=
  if dateStr.isEmpty then .ok none
  else
    match (splitWs dateStr).foldl partStep (none, none) with
    | (some n, some m) =>
      if n = 0 then .ok none
      else
        match monthNum? m with
        | none => .error ()
        | some mo =>
          match timeStr with
          | some ts =>
            if ts.isEmpty then .ok (mkDatetime? today.year mo ((n : Int)) 0 0 0)
            else
              match parseTimeParts ts with
              | .error e => .error e
              | .ok (h, mi, s) => .ok (mkDatetime? today.year mo ((n : Int)) h mi s)
          | none => .ok (mkDatetime? today.year mo ((n : Int)) 0 0 0)
    | _ => .ok none

/-- The date gate at the top of the `process_logs` loop: datetime
comparison when a threshold exists, else the lookback substring test when
patterns exist and are non-empty, else keep everything. -/
def dateGate (today : Today) (startDt : Option PyDateTime)
    (pats : Option (List (List Char))) (line : List Char) : Except Unit Bool :=
  match startDt with
  | some sd => should_include_log_line today line (some sd)
  | none =>
    match pats with
    | some ps => if ps.isEmpty then .ok true else .ok (ps.any (fun p => substr p line))
    | none => .ok true

/-- One full loop iteration of `process_logs`. -/
def processLine (today : Today) (df : List Char) (startDt : Option PyDateTime)
    (pats : Option (List (List Char))) (msgs : Msgs) (line : List Char) :
    Except Unit Msgs :=
  match dateGate today startDt pats line with
  | .error e => .error e
  | .ok false => .ok msgs
  | .ok true => .ok (aggStep df msgs line)

/-- `process_logs`: compute the threshold datetime (for non-empty filter
input), fall back to lookback patterns when it is `None`, then fold the
per-line step over the lines. -/
def process_logs (today : Today) (lines : List (List Char)) (df : List Char)
    (tf : Option (List Char)) : Except Unit Msgs :=
  match (if df.isEmpty then Except.ok none else parse_date_time_for_comparison today df tf) with
  | .error e => .error e
  | .ok startDt =>
    let pats := if !df.isEmpty && startDt.isNone then parse_date_filter today df tf else none
    lines.foldlM (processLine today df startDt pats) []

/-- ASCII lowercasing, Python `str.lower()` on the log alphabet. -/
def lowerChar (c : Char) : Char :=
  if 'A' ≤ c ∧ c ≤ 'Z' then Char.ofNat (c.toNat + 32) else c

/-- Lowercase a whole string. -/
def lowerL (l : List Char) : List Char := l.map lowerChar

/-- The search test of `print_report` for one record: a field matches
only when it is set (not `"-"`) and contains the lowered term. -/
def searchMatch (searchLower : List Char) (stype : List Char) (info : MsgInfo) : Bool :=
  if stype = s2l "sender" then
    !(info.from_ == dash) && substr searchLower (lowerL info.from_)
  else if stype = s2l "recipient" then
    !(info.to_ == dash) && substr searchLower (lowerL info.to_)
  else
    (!(info.from_ == dash) && substr searchLower (lowerL info.from_)) ||
    (!(info.to_ == dash) && substr searchLower (lowerL info.to_))

/-- The search-filter stage of `print_report`: with an empty term every
record is kept, otherwise only matching records survive. -/
def applySearchFilter (term : List Char) (stype : List Char) (msgs : Msgs) : Msgs :=
  if term.isEmpty then msgs
  else msgs.filter (fun p => searchMatch (lowerL term) stype p.2)

/-! Helper lemmas about the mapping operations. -/

theorem lookupQ_cons (p : List Char × MsgInfo) (ps : Msgs) (q : List Char) :
    lookupQ (p :: ps) q = if p.1 == q then some p.2 else lookupQ ps q := by
  unfold lookupQ
  by_cases h : (p.1 == q) = true
  · rw [List.find?_cons_of_pos ps h, if_pos h]
  · rw [List.find?_cons_of_neg ps h, if_neg h]

theorem lookupQ_append_self (msgs : Msgs) (q : List Char) (v : MsgInfo) :
    lookupQ (msgs ++ [(q, v)]) q = some ((lookupQ msgs q).getD v) := by
  induction msgs with
  | nil => simp [lookupQ]
  | cons p ps ih =>
    rw [List.cons_append, lookupQ_cons, lookupQ_cons]
    by_cases h : (p.1 == q) = true
    · rw [if_pos h, if_pos h]
      rfl
    · rw [if_neg h, if_neg h, ih]

theorem updateQ_cons (p : List Char × MsgInfo) (ps : Msgs) (q : List Char) (v : MsgInfo) :
    updateQ (p :: ps) q v = (if p.1 == q then (p.1, v) else p) :: updateQ ps q v := rfl

theorem lookupQ_updateQ_self (msgs : Msgs) (q : List Char) (v : MsgInfo)
    (h : (lookupQ msgs q).isSome = true) :
    lookupQ (updateQ msgs q v) q = some v := by
  induction msgs with
  | nil => simp [lookupQ] at h
  | cons p ps ih =>
    rw [lookupQ_cons] at h
    rw [updateQ_cons]
    by_cases hp : (p.1 == q) = true
    · rw [if_pos hp, lookupQ_cons, if_pos hp]
    · rw [if_neg hp] at h
      rw [if_neg hp, lookupQ_cons, if_neg hp]
      exact ih h

theorem lookupQ_ensure (msgs : Msgs) (q : List Char) :
    lookupQ (if (lookupQ msgs q).isSome then msgs else msgs ++ [(q, initEntry)]) q
      = some ((lookupQ msgs q).getD initEntry) := by
  cases h : lookupQ msgs q with
  | some w => simp [h]
  | none => simp [h, lookupQ_append_self]

theorem aggStep_lookup_blocked (df : List Char) (msgs : Msgs) (line q : List Char)
    (hq : extract_queue_id line = some q) (hb : is_blocked line = true) :
    lookupQ (aggStep df msgs line) q = some (blockedEntry line df) := by
  have h1 := lookupQ_ensure msgs q
  simp only [aggStep, hq, hb, if_true]
  apply lookupQ_updateQ_self
  rw [h1]
  rfl

theorem aggStep_lookup_merge (df : List Char) (msgs : Msgs) (line q : List Char)
    (hq : extract_queue_id line = some q) (hb : is_blocked line = false) :
    lookupQ (aggStep df msgs line) q =
      some (mergeEntry ((lookupQ msgs q).getD initEntry) line) := by
  have h1 := lookupQ_ensure msgs q
  simp only [aggStep, hq, hb, Bool.false_eq_true, if_false]
  rw [h1]
  apply lookupQ_updateQ_self
  rw [h1]
  rfl

/-! Helper lemmas about character classes and tokenisation. -/

theorem isDigit_not_ws (c : Char) (h : c.isDigit = true) : isWs c = false := by
  cases hw : isWs c with
  | false => rfl
  | true =>
    exfalso
    simp only [isWs, Bool.or_eq_true, beq_iff_eq] at hw
    rcases hw with ((((rfl | rfl) | rfl) | rfl) | rfl) | rfl <;> exact absurd h (by decide)

theorem isDigit_not_upper (c : Char) (h : c.isDigit = true) : c.isUpper = false := by
  cases hu : c.isUpper with
  | false => rfl
  | true =>
    exfalso
    simp only [Char.isDigit, Bool.and_eq_true, decide_eq_true_eq] at h
    simp only [Char.isUpper, Bool.and_eq_true, decide_eq_true_eq] at hu
    exact absurd (UInt32.le_trans hu.1 h.2) (by decide)

theorem all_digits_not_ws (l : List Char) (hd : l.all Char.isDigit = true) :
    l.all (fun c => !isWs c) = true := by
  rw [List.all_eq_true] at hd ⊢
  intro c hc
  simp [isDigit_not_ws c (hd c hc)]

theorem splitWsAux_cons_nonws (c : Char) (cs acc : List Char) (h : isWs c = false) :
    splitWsAux (c :: cs) acc = splitWsAux cs (c :: acc) := by
  rw [splitWsAux, if_neg (by simp [h])]

theorem splitWsAux_nonws (l : List Char) (hl : l.all (fun c => !isWs c) = true)
    (acc : List Char) :
    splitWsAux l acc = splitWsAux [] (l.reverse ++ acc) := by
  induction l generalizing acc with
  | nil => simp
  | cons c cs ih =>
    simp only [List.all_cons, Bool.and_eq_true, Bool.not_eq_true'] at hl
    have harr : (c :: cs).reverse ++ acc = cs.reverse ++ (c :: acc) := by
      simp [List.append_assoc]
    rw [splitWsAux_cons_nonws c cs acc hl.1, ih hl.2, harr]

theorem splitWs_single (l : List Char) (hne : l ≠ [])
    (hl : l.all (fun c => !isWs c) = true) : splitWs l = [l] := by
  rw [splitWs, splitWsAux_nonws l hl []]
  rw [splitWsAux, if_neg (by simp [hne]), List.append_nil, List.reverse_reverse]

theorem dropWhile_all_neg (p : Char → Bool) (l : List Char)
    (h : l.all (fun c => !p c) = true) : l.dropWhile p = l := by
  induction l with
  | nil => rfl
  | cons c cs _ =>
    simp only [List.all_cons, Bool.and_eq_true, Bool.not_eq_true'] at h
    rw [List.dropWhile_cons, if_neg (by simp [h.1])]

theorem stripWsL_nonws (l : List Char) (hl : l.all (fun c => !isWs c) = true) :
    stripWsL l = l := by
  rw [stripWsL, dropWhile_all_neg isWs l hl,
    dropWhile_all_neg isWs l.reverse (by simpa using hl), List.reverse_reverse]

theorem pyInt?_digits (l : List Char) (hne : l ≠ []) (hd : l.all Char.isDigit = true) :
    pyInt? l = some ((digitsVal l : Int)) := by
  rw [pyInt?, stripWsL_nonws l (all_digits_not_ws l hd)]
  rcases l with _ | ⟨c, cs⟩
  · exact absurd rfl hne
  · have hc : c.isDigit = true := by
      rw [List.all_cons, Bool.and_eq_true] at hd
      exact hd.1
    split
    · rename_i heq
      rw [List.cons.injEq] at heq
      rw [heq.1] at hc
      exact absurd hc (by decide)
    · rename_i heq
      rw [List.cons.injEq] at heq
      rw [heq.1] at hc
      exact absurd hc (by decide)
    · simp [pyIntCore, hd]

theorem isEmpty_false_of_ne_nil (l : List Char) (hne : l ≠ []) : l.isEmpty = false := by
  cases l with
  | nil => exact absurd rfl hne
  | cons a t => rfl

theorem monthLike_digits (l : List Char) (hne : l ≠ []) (hd : l.all Char.isDigit = true) :
    monthLike l = false := by
  rcases l with _ | ⟨a, rest⟩
  · exact absurd rfl hne
  · have ha : a.isDigit = true := by
      rw [List.all_cons, Bool.and_eq_true] at hd
      exact hd.1
    rcases rest with _ | ⟨b, rest2⟩
    · rfl
    · rcases rest2 with _ | ⟨c, rest3⟩
      · rfl
      · simp [monthLike, isDigit_not_upper a ha]

theorem pdtc_digits (today : Today) (df : List Char) (tf : Option (List Char))
    (hne : df ≠ []) (hd : df.all Char.isDigit = true) :
    parse_date_time_for_comparison today df tf = .ok none := by
  have hie := isEmpty_false_of_ne_nil df hne
  rw [parse_date_time_for_comparison, hie]
  simp only [Bool.false_eq_true, if_false]
  rw [splitWs_single df hne (all_digits_not_ws df hd), List.foldl_cons, List.foldl_nil,
    partStep]
  by_cases hlen : df.length ≤ 2
  · rw [if_pos (by simp [isdigitL, hie, hd, hlen])]
  · rw [if_neg (by simp [isdigitL, hlen]), if_neg (by simp [monthLike_digits df hne hd])]

theorem parse_date_filter_digits (today : Today) (df : List Char) (tf : Option (List Char))
    (hne : df ≠ []) (hd : df.all Char.isDigit = true) :
    parse_date_filter today df tf =
      some ((List.range (digitsVal df + 1)).map (fun i => lookbackPat (minusDays today i))) := by
  have hie := isEmpty_false_of_ne_nil df hne
  rw [parse_date_filter, hie]
  simp only [Bool.false_eq_true, if_false]
  rw [pyInt?_digits df hne hd]
  show (if ((digitsVal df : Int)) < 0 then some [] else
      some (List.map (fun i => lookbackPat (minusDays today i))
        (List.range (((digitsVal df : Int)).toNat + 1)))) = _
  rw [if_neg (by exact Int.not_lt.mpr (Int.natCast_nonneg _)), Int.toNat_natCast]

theorem dateGate_lookback (today : Today) (ps : List (List Char)) (line : List Char)
    (hps : ps.isEmpty = false) :
    dateGate today none (some ps) line = .ok (ps.any (fun p => substr p line)) := by
  simp only [dateGate]
  rw [hps]
  simp

theorem foldlM_lookback (today : Today) (df : List Char) (ps : List (List Char))
    (hps : ps.isEmpty = false) (lines : List (List Char)) (msgs : Msgs) :
    List.foldlM (processLine today df none (some ps)) msgs lines =
      .ok ((lines.filter (fun l => ps.any (fun p => substr p l))).foldl (aggStep df) msgs) := by
  induction lines generalizing msgs with
  | nil => rfl
  | cons l ls ih =>
    rw [List.foldlM_cons]
    by_cases hc : ps.any (fun p => substr p l) = true
    · have h1 : processLine today df none (some ps) msgs l = .ok (aggStep df msgs l) := by
        rw [processLine, dateGate_lookback today ps l hps, hc]
      rw [h1]
      show List.foldlM (processLine today df none (some ps)) (aggStep df msgs l) ls = _
      rw [ih, @List.filter_cons_of_pos _ (fun s => ps.any (fun pat => substr pat s)) l ls hc,
        List.foldl_cons]
    · have hc' : ps.any (fun p => substr p l) = false := by
        cases hb : ps.any (fun p => substr p l) with
        | true => exact absurd hb hc
        | false => rfl
      have h1 : processLine today df none (some ps) msgs l = .ok msgs := by
        rw [processLine, dateGate_lookback today ps l hps, hc']
      rw [h1]
      show List.foldlM (processLine today df none (some ps)) msgs ls = _
      rw [ih, @List.filter_cons_of_neg _ (fun s => ps.any (fun pat => substr pat s)) l ls
        (by simp [hc'])]

/-! Field-level lemmas about the non-blocked merge. -/

theorem mergeEntry_from_some (old : MsgInfo) (line s : List Char)
    (h : extract_field (s2l "from=<") line = some s) (hs : s ≠ []) :
    (mergeEntry old line).from_ = s := by
  simp only [mergeEntry, h]
  rw [if_neg (by simp [isEmpty_false_of_ne_nil s hs])]

theorem mergeEntry_from_keep (old : MsgInfo) (line : List Char)
    (h : truthyS (extract_field (s2l "from=<") line) = false) :
    (mergeEntry old line).from_ = old.from_ := by
  cases hf : extract_field (s2l "from=<") line with
  | none => simp [mergeEntry, hf]
  | some s =>
    rw [hf] at h
    have hs : s.isEmpty = true := by
      cases hb : s.isEmpty with
      | true => rfl
      | false =>
        simp only [truthyS, hb] at h
        exact absurd h (by decide)
    simp [mergeEntry, hf, hs]

theorem mergeEntry_to_some (old : MsgInfo) (line s : List Char)
    (h : extract_field (s2l "to=<") line = some s) (hs : s ≠ []) :
    (mergeEntry old line).to_ = s := by
  simp only [mergeEntry, h]
  rw [if_neg (by simp [isEmpty_false_of_ne_nil s hs])]

theorem mergeEntry_to_keep (old : MsgInfo) (line : List Char)
    (h : truthyS (extract_field (s2l "to=<") line) = false) :
    (mergeEntry old line).to_ = old.to_ := by
  cases hf : extract_field (s2l "to=<") line with
  | none => simp [mergeEntry, hf]
  | some s =>
    rw [hf] at h
    have hs : s.isEmpty = true := by
      cases hb : s.isEmpty with
      | true => rfl
      | false =>
        simp only [truthyS, hb] at h
        exact absurd h (by decide)
    simp [mergeEntry, hf, hs]

theorem mergeEntry_size_some (old : MsgInfo) (line s : List Char)
    (h : extract_size line = some s) (hs : s ≠ []) :
    (mergeEntry old line).size = s := by
  simp only [mergeEntry, h]
  rw [if_neg (by simp [isEmpty_false_of_ne_nil s hs])]

theorem mergeEntry_size_keep (old : MsgInfo) (line : List Char)
    (h : truthyS (extract_size line) = false) :
    (mergeEntry old line).size = old.size := by
  cases hf : extract_size line with
  | none => simp [mergeEntry, hf]
  | some s =>
    rw [hf] at h
    have hs : s.isEmpty = true := by
      cases hb : s.isEmpty with
      | true => rfl
      | false =>
        simp only [truthyS, hb] at h
        exact absurd h (by decide)
    simp [mergeEntry, hf, hs]

theorem mergeEntry_status_sent (old : MsgInfo) (line : List Char)
    (h : substr (s2l "status=sent") line = true) :
    (mergeEntry old line).status = s2l "sent" := by
  simp [mergeEntry, h]

theorem mergeEntry_status_keep (old : MsgInfo) (line : List Char)
    (h : substr (s2l "status=sent") line = false) :
    (mergeEntry old line).status = old.status := by
  simp [mergeEntry, h]

theorem mergeEntry_sg_yes (old : MsgInfo) (line : List Char)
    (h : is_sendgrid line = true) : (mergeEntry old line).sg = s2l "Yes" := by
  simp [mergeEntry, h]

theorem mergeEntry_sg_keep (old : MsgInfo) (line : List Char)
    (h : is_sendgrid line = false) : (mergeEntry old line).sg = old.sg := by
  simp [mergeEntry, h]

theorem mergeEntry_time_keep (old : MsgInfo) (line : List Char)
    (h : old.time ≠ dash) : (mergeEntry old line).time = old.time := by
  simp only [mergeEntry]
  rw [if_neg h]

/-! Concrete log lines used as test inputs. -/

def today0 : Today := ⟨2025, 12, 8⟩

def exLine1 : List Char :=
  s2l "Dec  5 10:00:00 mail postfix/smtpd[123]: ABCDEF1234: from=<a@x.com>"

def exLine2 : List Char :=
  s2l "Dec  5 10:00:05 mail postfix/smtpd[123]: ABCDEF1234: to=<b@y.com>, size=512, status=sent"

def deferredLine : List Char :=
  s2l "Dec  5 11:00:00 mail postfix/smtp[200]: AABBCCDDEE11: to=<b@y.com>, relay=none, status=deferred (connection timed out)"

def sentLine : List Char :=
  s2l "Dec  5 12:00:00 mail postfix/smtp[200]: AABBCCDDEE11: to=<b@y.com>, relay=remote, status=sent (250 OK)"

def rejectLine : List Char :=
  s2l "Dec  7 09:00:00 mail postfix/smtpd[9]: AA11BB22CC33: NOQUEUE: reject: from=<c@z.com>, size=777"

def badMonthLine : List Char :=
  s2l "Zzz  6 10:00:00 mail postfix/smtp[1]: AABBCCDDEE11: to=<b@y.com>, status=sent"

def emptyFromLine : List Char :=
  s2l "Dec  5 10:00:00 mail postfix/qmgr[1]: ABCDEF1234: from=<>, size=300"

def emptyFromBounceLine : List Char :=
  s2l "Dec  5 10:00:00 mail postfix/bounce[1]: ABCDEF1234: from=<>, to=<>, status=bounced"

def dayLine8 : List Char := s2l "Dec  8 10:00:00 mail postfix/x[1]: AAAAAAAA01: from=<a@x.com>"

def dayLine7 : List Char := s2l "Dec  7 10:00:00 mail postfix/x[1]: BBBBBBBB02: from=<b@x.com>"

def dayLine6 : List Char := s2l "Dec  6 10:00:00 mail postfix/x[1]: CCCCCCCC03: from=<c@x.com>"

/-! Claim theorems. -/

/-- C1: processing a line that carries a transaction id and is classified
as blocked replaces the record for that id wholesale: sender and recipient
are exactly the captures of that one line (sentinel when absent or empty),
size is unset, outcome is blocked and the relay marker reflects that line
alone — independently of whatever record was accumulated before, and with
no other field extraction from that line. -/
theorem C1_blocked_wholesale_overwrite (df : List Char) (msgs : Msgs) (line q : List Char)
    (hq : extract_queue_id line = some q) (hb : is_blocked line = true) :
    lookupQ (aggStep df msgs line) q = some
      { from_ := orDash (extract_field (s2l "from=<") line)
        to_ := orDash (extract_field (s2l "to=<") line)
        size := dash
        status := s2l "blocked"
        sg := if is_sendgrid line then s2l "Yes" else s2l "No"
        time := if df.isEmpty then dash else df } ∧
    ∀ msgs2 : Msgs, lookupQ (aggStep df msgs line) q = lookupQ (aggStep df msgs2 line) q := by
  refine ⟨aggStep_lookup_blocked df msgs line q hq hb, ?_⟩
  intro msgs2
  rw [aggStep_lookup_blocked df msgs line q hq hb,
    aggStep_lookup_blocked df msgs2 line q hq hb]

theorem C1_witness :
    lookupQ (aggStep (s2l "3")
      [(s2l "AA11BB22CC33",
        ⟨s2l "x@a.com", s2l "y@b.com", s2l "512", s2l "sent", s2l "Yes", s2l "5 Dec 10:00:00"⟩)]
      rejectLine) (s2l "AA11BB22CC33") =
      some ⟨s2l "c@z.com", dash, dash, s2l "blocked", s2l "No", s2l "3"⟩ :=
  ((C1_blocked_wholesale_overwrite (s2l "3")
    [(s2l "AA11BB22CC33",
      ⟨s2l "x@a.com", s2l "y@b.com", s2l "512", s2l "sent", s2l "Yes", s2l "5 Dec 10:00:00"⟩)]
    rejectLine (s2l "AA11BB22CC33") (by decide) (by decide)).1).trans (by decide)

/-- C2: a non-blocked line with a transaction id merges field-by-field:
the stored record becomes exactly the merge of the old record with the
line, where sender, recipient and size are overwritten whenever the line
carries a non-empty capture and kept otherwise, the sent outcome and the
relay marker are monotone once set, the timestamp is first-observed-wins,
and feeding two such lines in either relative order never changes a
timestamp that was already set. -/
theorem C2_merge_field_policies (df : List Char) (msgs : Msgs) (line q : List Char)
    (hq : extract_queue_id line = some q) (hb : is_blocked line = false) :
    lookupQ (aggStep df msgs line) q =
      some (mergeEntry ((lookupQ msgs q).getD initEntry) line) ∧
    (∀ (old : MsgInfo) (s : List Char), extract_field (s2l "from=<") line = some s → s ≠ [] →
      (mergeEntry old line).from_ = s) ∧
    (∀ old : MsgInfo, truthyS (extract_field (s2l "from=<") line) = false →
      (mergeEntry old line).from_ = old.from_) ∧
    (∀ (old : MsgInfo) (s : List Char), extract_field (s2l "to=<") line = some s → s ≠ [] →
      (mergeEntry old line).to_ = s) ∧
    (∀ old : MsgInfo, truthyS (extract_field (s2l "to=<") line) = false →
      (mergeEntry old line).to_ = old.to_) ∧
    (∀ (old : MsgInfo) (s : List Char), extract_size line = some s → s ≠ [] →
      (mergeEntry old line).size = s) ∧
    (∀ old : MsgInfo, truthyS (extract_size line) = false →
      (mergeEntry old line).size = old.size) ∧
    (∀ old : MsgInfo, substr (s2l "status=sent") line = true →
      (mergeEntry old line).status = s2l "sent") ∧
    (∀ old : MsgInfo, old.status = s2l "sent" → (mergeEntry old line).status = s2l "sent") ∧
    (∀ old : MsgInfo, is_sendgrid line = true → (mergeEntry old line).sg = s2l "Yes") ∧
    (∀ old : MsgInfo, old.sg = s2l "Yes" → (mergeEntry old line).sg = s2l "Yes") ∧
    (∀ old : MsgInfo, old.time ≠ dash → (mergeEntry old line).time = old.time) ∧
    (∀ (old : MsgInfo) (l2 : List Char), old.time ≠ dash →
      (mergeEntry (mergeEntry old line) l2).time = old.time ∧
      (mergeEntry (mergeEntry old l2) line).time = old.time) := by
  refine ⟨aggStep_lookup_merge df msgs line q hq hb,
    fun old s h hs => mergeEntry_from_some old line s h hs,
    fun old h => mergeEntry_from_keep old line h,
    fun old s h hs => mergeEntry_to_some old line s h hs,
    fun old h => mergeEntry_to_keep old line h,
    fun old s h hs => mergeEntry_size_some old line s h hs,
    fun old h => mergeEntry_size_keep old line h,
    fun old h => mergeEntry_status_sent old line h,
    ?_, fun old h => mergeEntry_sg_yes old line h, ?_,
    fun old h => mergeEntry_time_keep old line h, ?_⟩
  · intro old h
    cases hs : substr (s2l "status=sent") line with
    | true => exact mergeEntry_status_sent old line hs
    | false => rw [mergeEntry_status_keep old line hs, h]
  · intro old h
    cases hs : is_sendgrid line with
    | true => exact mergeEntry_sg_yes old line hs
    | false => rw [mergeEntry_sg_keep old line hs, h]
  · intro old l2 h
    have h1 := mergeEntry_time_keep old line h
    have h2 := mergeEntry_time_keep old l2 h
    constructor
    · rw [mergeEntry_time_keep (mergeEntry old line) l2 (by rw [h1]; exact h), h1]
    · rw [mergeEntry_time_keep (mergeEntry old l2) line (by rw [h2]; exact h), h2]

theorem C2_witness :
    lookupQ (aggStep [] [] exLine2) (s2l "ABCDEF1234") =
      some (mergeEntry initEntry exLine2) :=
  (C2_merge_field_policies [] [] exLine2 (s2l "ABCDEF1234") (by decide) (by decide)).1

/-- C6 counterexample: a deferred line (classified blocked) followed by a
later sent line for the same transaction id ends with outcome `sent`, so
Blocked is not terminal for the remainder of the scan. -/
theorem C6_counterexample :
    process_logs today0 [deferredLine] [] none =
      .ok [(s2l "AABBCCDDEE11", ⟨dash, s2l "b@y.com", dash, s2l "blocked", s2l "No", dash⟩)] ∧
    process_logs today0 [deferredLine, sentLine] [] none =
      .ok [(s2l "AABBCCDDEE11",
        ⟨dash, s2l "b@y.com", dash, s2l "sent", s2l "No", s2l "5 Dec 12:00:00"⟩)] ∧
    s2l "sent" ≠ s2l "blocked" := by
  refine ⟨by decide, by decide, by decide⟩

/-- C6 (amended): once a record's outcome is blocked, a later line for the
same id keeps it blocked unless that line is itself blocking (outcome stays
blocked) or carries the sent marker (outcome becomes sent); no other change
is possible. -/
theorem C6_blocked_changed_only_by_sent (df : List Char) (msgs : Msgs) (line q : List Char)
    (hq : extract_queue_id line = some q)
    (hprev : (lookupQ msgs q).map MsgInfo.status = some (s2l "blocked")) :
    (is_blocked line = true →
      (lookupQ (aggStep df msgs line) q).map MsgInfo.status = some (s2l "blocked")) ∧
    (is_blocked line = false → substr (s2l "status=sent") line = false →
      (lookupQ (aggStep df msgs line) q).map MsgInfo.status = some (s2l "blocked")) ∧
    (is_blocked line = false → substr (s2l "status=sent") line = true →
      (lookupQ (aggStep df msgs line) q).map MsgInfo.status = some (s2l "sent")) := by
  cases hl : lookupQ msgs q with
  | none => rw [hl] at hprev; exact absurd hprev (by simp)
  | some w =>
    rw [hl] at hprev
    have hw : w.status = s2l "blocked" := by
      simpa using hprev
    refine ⟨?_, ?_, ?_⟩
    · intro hb
      rw [aggStep_lookup_blocked df msgs line q hq hb]
      rfl
    · intro hb hs
      rw [aggStep_lookup_merge df msgs line q hq hb, hl]
      simp [mergeEntry_status_keep w line hs, hw]
    · intro hb hs
      rw [aggStep_lookup_merge df msgs line q hq hb, hl]
      simp [mergeEntry_status_sent w line hs]

theorem C6_witness :
    (lookupQ (aggStep []
      [(s2l "AABBCCDDEE11", ⟨dash, s2l "b@y.com", dash, s2l "blocked", s2l "No", dash⟩)]
      sentLine) (s2l "AABBCCDDEE11")).map MsgInfo.status = some (s2l "sent") :=
  (C6_blocked_changed_only_by_sent []
    [(s2l "AABBCCDDEE11", ⟨dash, s2l "b@y.com", dash, s2l "blocked", s2l "No", dash⟩)]
    sentLine (s2l "AABBCCDDEE11") (by decide) (by decide)).2.2 (by decide) (by decide)

/-- C7: on the blocked wholesale overwrite the record's timestamp becomes
the raw date-filter string when one is active and the unset sentinel
otherwise — never the blocking line's own timestamp. -/
theorem C7_blocked_time_quirk (df : List Char) (msgs : Msgs) (line q : List Char)
    (hq : extract_queue_id line = some q) (hb : is_blocked line = true) :
    (lookupQ (aggStep df msgs line) q).map MsgInfo.time =
      some (if df.isEmpty then dash else df) := by
  rw [aggStep_lookup_blocked df msgs line q hq hb]
  rfl

theorem C7_witness :
    (lookupQ (aggStep (s2l "3") [] rejectLine) (s2l "AA11BB22CC33")).map MsgInfo.time =
      some (s2l "3") ∧
    extract_timestamp rejectLine = some (s2l "7 Dec 09:00:00") ∧
    s2l "3" ≠ s2l "7 Dec 09:00:00" :=
  ⟨C7_blocked_time_quirk (s2l "3") [] rejectLine (s2l "AA11BB22CC33")
    (by decide) (by decide), by decide, by decide⟩

/-- C9 counterexample: on the spec's own two-line example the stored
timestamp is the reformatted `5 Dec 10:00:00`, not the source-form
`Dec  5 10:00:00` the claim asserts. -/
theorem C9_counterexample :
    process_logs today0 [exLine1, exLine2] [] none =
      .ok [(s2l "ABCDEF1234",
        ⟨s2l "a@x.com", s2l "b@y.com", s2l "512", s2l "sent", s2l "No", s2l "5 Dec 10:00:00"⟩)] ∧
    s2l "5 Dec 10:00:00" ≠ s2l "Dec  5 10:00:00" := by
  refine ⟨by decide, by decide⟩

/-- C9 (amended): the stored timestamp is the first non-empty timestamp
extracted for the transaction — reformatted at extraction to day-first
form such as `5 Dec 10:00:00` — and later non-blocked lines never change
it once set. -/
theorem C9_timestamp_policy (line : List Char) (old : MsgInfo) :
    (old.time = dash → ∀ t, extract_timestamp line = some t → t ≠ [] →
      (mergeEntry old line).time = t) ∧
    (old.time = dash → extract_timestamp line = none → (mergeEntry old line).time = dash) ∧
    (old.time ≠ dash → (mergeEntry old line).time = old.time) ∧
    extract_timestamp exLine1 = some (s2l "5 Dec 10:00:00") := by
  refine ⟨?_, ?_, fun h => mergeEntry_time_keep old line h, by decide⟩
  · intro h t ht htne
    simp only [mergeEntry, h, if_pos, ht]
    rw [if_neg (by simp [isEmpty_false_of_ne_nil t htne])]
  · intro h ht
    simp only [mergeEntry, h, if_pos, ht]

theorem C9_witness :
    (mergeEntry initEntry exLine1).time = s2l "5 Dec 10:00:00" :=
  (C9_timestamp_policy exLine1 initEntry).1 rfl (s2l "5 Dec 10:00:00") (by decide) (by decide)

/-- C10: an empty bracketed address (`from=<>` or `to=<>`) never sets the
corresponding field: a non-blocked line keeps the previously stored value
and a blocked line writes the unset sentinel. -/
theorem C10_empty_bracket_address (line : List Char) (old : MsgInfo) (df : List Char) :
    (extract_field (s2l "from=<") line = some [] →
      (mergeEntry old line).from_ = old.from_) ∧
    (extract_field (s2l "to=<") line = some [] →
      (mergeEntry old line).to_ = old.to_) ∧
    (extract_field (s2l "from=<") line = some [] → (blockedEntry line df).from_ = dash) ∧
    (extract_field (s2l "to=<") line = some [] → (blockedEntry line df).to_ = dash) := by
  refine ⟨?_, ?_, ?_, ?_⟩
  · intro h
    exact mergeEntry_from_keep old line (by rw [h]; rfl)
  · intro h
    exact mergeEntry_to_keep old line (by rw [h]; rfl)
  · intro h
    simp [blockedEntry, h, orDash]
  · intro h
    simp [blockedEntry, h, orDash]

theorem C10_witness :
    (mergeEntry ⟨s2l "keep@me", dash, dash, dash, s2l "No", dash⟩ emptyFromLine).from_ =
      s2l "keep@me" ∧
    (blockedEntry emptyFromBounceLine []).from_ = dash ∧
    (blockedEntry emptyFromBounceLine []).to_ = dash :=
  ⟨(C10_empty_bracket_address emptyFromLine
      ⟨s2l "keep@me", dash, dash, dash, s2l "No", dash⟩ []).1 (by decide),
   (C10_empty_bracket_address emptyFromBounceLine initEntry []).2.2.1 (by decide),
   (C10_empty_bracket_address emptyFromBounceLine initEntry []).2.2.2 (by decide)⟩

/-- C3: pinned failing input for the absolute-threshold filter.  With the
threshold `5 Dec` active (parsed to 2025-12-05 00:00:00), a line whose
timestamp token matches the regex but whose month token `Zzz` is not a
month abbreviation makes the whole scan raise (the `strptime` error
escapes `parse_timestamp_from_line`), instead of the line merely being
excluded as the claim states. -/
theorem C3_unparseable_month_crash :
    parse_date_time_for_comparison today0 (s2l "5 Dec") none =
      .ok (some ⟨2025, 12, 5, 0, 0, 0⟩) ∧
    parse_timestamp_from_line today0 badMonthLine = .error () ∧
    process_logs today0 [badMonthLine] (s2l "5 Dec") none = .error () := by
  refine ⟨by decide, by decide, by decide⟩

/-- C5: pinned failing inputs for filter parsing.  The date string
`Abc 5` (month-like token that is no month abbreviation) and the time
string `noon` (non-numeric) both raise out of the aggregation instead of
degrading to "no filter"; a date string with no month-like token, such as
`hello`, does degrade to no filter. -/
theorem C5_filter_crash :
    process_logs today0 [] (s2l "Abc 5") none = .error () ∧
    process_logs today0 [exLine1] (s2l "5 Dec") (some (s2l "noon")) = .error () ∧
    process_logs today0 [exLine1] (s2l "hello") none =
      .ok (aggStep (s2l "hello") [] exLine1) := by
  refine ⟨by decide, by decide, by decide⟩

/-- C4: with a numeric filter string denoting the non-negative integer N,
the threshold parse yields no datetime, the lookback patterns are the
N+1 syslog date substrings of today back through N days ago (two spaces
before single-digit days, one before double-digit days), the whole run
never errors and aggregates exactly the lines containing one of the
patterns, and lookback 1 keeps lines dated today and yesterday while
dropping lines from two days ago. -/
theorem C4_lookback_filter (today : Today) (df : List Char) (N : Nat)
    (lines : List (List Char)) (tf : Option (List Char))
    (hne : df ≠ []) (hd : df.all Char.isDigit = true) (hval : digitsVal df = N) :
    parse_date_time_for_comparison today df tf = .ok none ∧
    parse_date_filter today df tf =
      some ((List.range (N + 1)).map (fun i => lookbackPat (minusDays today i))) ∧
    process_logs today lines df tf =
      .ok ((lines.filter (fun l =>
        ((List.range (N + 1)).map (fun i => lookbackPat (minusDays today i))).any
          (fun p => substr p l))).foldl (aggStep df) []) ∧
    (∀ line, dateGate today none
        (some ((List.range (N + 1)).map (fun i => lookbackPat (minusDays today i)))) line =
          .ok true ↔
      ∃ p ∈ (List.range (N + 1)).map (fun i => lookbackPat (minusDays today i)),
        substr p line = true) ∧
    process_logs ⟨2025, 12, 8⟩ [dayLine8, dayLine7, dayLine6] (s2l "1") none =
      .ok [(s2l "AAAAAAAA01", ⟨s2l "a@x.com", dash, dash, dash, s2l "No", s2l "8 Dec 10:00:00"⟩),
           (s2l "BBBBBBBB02", ⟨s2l "b@x.com", dash, dash, dash, s2l "No", s2l "7 Dec 10:00:00"⟩)] ∧
    lookbackPat ⟨2025, 12, 8⟩ = s2l "Dec  8" ∧
    lookbackPat ⟨2025, 12, 10⟩ = s2l "Dec 10" ∧
    minusDays ⟨2025, 12, 8⟩ 1 = ⟨2025, 12, 7⟩ := by
  subst hval
  have h1 := pdtc_digits today df tf hne hd
  have h2 := parse_date_filter_digits today df tf hne hd
  have hie := isEmpty_false_of_ne_nil df hne
  have hps : ((List.range (digitsVal df + 1)).map
      (fun i => lookbackPat (minusDays today i))).isEmpty = false := by
    simp
  have hscrut : (if df.isEmpty then Except.ok none
      else parse_date_time_for_comparison today df tf) = .ok (none : Option PyDateTime) := by
    rw [hie]
    simpa using h1
  refine ⟨h1, h2, ?_, ?_, by decide, by decide, by decide, by decide⟩
  · rw [process_logs, hscrut]
    show List.foldlM (processLine today df none
      (if !df.isEmpty && (none : Option PyDateTime).isNone then parse_date_filter today df tf
        else none)) [] lines = _
    rw [hie]
    show List.foldlM (processLine today df none (parse_date_filter today df tf)) [] lines = _
    rw [h2]
    exact foldlM_lookback today df _ hps lines []
  · intro line
    rw [dateGate_lookback today _ line hps]
    simp [List.any_eq_true]

theorem C4_witness :
    process_logs ⟨2025, 12, 8⟩ [dayLine7, dayLine6] (s2l "1") none =
      .ok [(s2l "BBBBBBBB02",
        ⟨s2l "b@x.com", dash, dash, dash, s2l "No", s2l "7 Dec 10:00:00"⟩)] :=
  ((C4_lookback_filter ⟨2025, 12, 8⟩ (s2l "1") 1 [dayLine7, dayLine6] none
    (by decide) (by decide) (by decide)).2.2.1).trans (by decide)

/-- C8: with a non-empty search term a record passes the search filter iff
it matches; under target sender (resp. recipient) it matches iff that
field is set and contains the lowered term; under any other target it
matches iff either set field does; an unset field never matches; and the
spec's example — term `example.com` with target recipient against a record
whose sender matches but whose recipient does not — is filtered out. -/
theorem C8_search_semantics (term stype : List Char) (msgs : Msgs)
    (p : List Char × MsgInfo) (hterm : term ≠ []) :
    (p ∈ applySearchFilter term stype msgs ↔
      p ∈ msgs ∧ searchMatch (lowerL term) stype p.2 = true) ∧
    (stype = s2l "sender" →
      (searchMatch (lowerL term) stype p.2 = true ↔
        p.2.from_ ≠ dash ∧ substr (lowerL term) (lowerL p.2.from_) = true)) ∧
    (stype = s2l "recipient" →
      (searchMatch (lowerL term) stype p.2 = true ↔
        p.2.to_ ≠ dash ∧ substr (lowerL term) (lowerL p.2.to_) = true)) ∧
    (stype ≠ s2l "sender" → stype ≠ s2l "recipient" →
      (searchMatch (lowerL term) stype p.2 = true ↔
        (p.2.from_ ≠ dash ∧ substr (lowerL term) (lowerL p.2.from_) = true) ∨
        (p.2.to_ ≠ dash ∧ substr (lowerL term) (lowerL p.2.to_) = true))) ∧
    (stype = s2l "sender" → p.2.from_ = dash →
      searchMatch (lowerL term) stype p.2 = false) ∧
    (stype = s2l "recipient" → p.2.to_ = dash →
      searchMatch (lowerL term) stype p.2 = false) ∧
    applySearchFilter (s2l "example.com") (s2l "recipient")
      [(s2l "QX", ⟨s2l "bob@example.com", s2l "carol@other.org", dash,
        s2l "sent", s2l "No", dash⟩)] = [] := by
  have hie := isEmpty_false_of_ne_nil term hterm
  refine ⟨?_, ?_, ?_, ?_, ?_, ?_, by decide⟩
  · rw [applySearchFilter, hie]
    simp [List.mem_filter]
  · intro hs
    rw [hs, searchMatch, if_pos rfl]
    simp [beq_iff_eq]
  · intro hs
    rw [hs, searchMatch]
    rw [if_neg (by decide), if_pos rfl]
    simp [beq_iff_eq]
  · intro hs1 hs2
    rw [searchMatch, if_neg hs1, if_neg hs2]
    simp [beq_iff_eq]
  · intro hs hd
    rw [hs, searchMatch, if_pos rfl, hd]
    simp
  · intro hs hd
    rw [hs, searchMatch]
    rw [if_neg (by decide), if_pos rfl, hd]
    simp

theorem C8_witness :
    searchMatch (lowerL (s2l "example.com")) (s2l "recipient")
      ⟨s2l "bob@example.com", s2l "carol@other.org", dash, s2l "sent", s2l "No", dash⟩
      = false ∧
    searchMatch (lowerL (s2l "EXAMPLE.com")) (s2l "sender")
      ⟨s2l "bob@Example.COM", dash, dash, s2l "sent", s2l "No", dash⟩ = true := by
  constructor
  · have h := ((C8_search_semantics (s2l "example.com") (s2l "recipient") []
      (s2l "QX", ⟨s2l "bob@example.com", s2l "carol@other.org", dash,
        s2l "sent", s2l "No", dash⟩) (by decide)).2.2.1 rfl)
    cases hm : searchMatch (lowerL (s2l "example.com")) (s2l "recipient")
        ⟨s2l "bob@example.com", s2l "carol@other.org", dash, s2l "sent", s2l "No", dash⟩ with
    | false => rfl
    | true =>
      exact absurd ((h.mp hm).2) (by decide)
  · have h := ((C8_search_semantics (s2l "EXAMPLE.com") (s2l "sender") []
      (s2l "QX", ⟨s2l "bob@Example.COM", dash, dash, s2l "sent", s2l "No", dash⟩)
      (by decide)).2.1 rfl)
    exact h.mpr ⟨by decide, by decide⟩

end MailcowDR
